import Mathlib

/-!
Shallow embedding of `include/sak_data.h` (class `SAKData`).

`SAKData` is a `std::unordered_map<std::string, boost::any>`.  The two
insertion modes are `add_copy` (the map's `boost::any` owns a copy of the
value) and `add_ref` (the map's `boost::any` holds a pointer `type *` to an
external object).  `get<type>` looks the name up, then compares the stored
`typeid` first against `typeid(type *)` (dereferencing the stored pointer on
a match) and then against `typeid(type)` (returning a reference into the
stored `boost::any` itself); otherwise it raises `ExcTypeMismatch`.  A
missing name raises `ExcNameNotFound` before any access.  The deal.II
`Assert` macro is modelled in its checking (debug) form, which is also what
the class documentation promises ("throws an exception if either the name
does not exist or if the conversion fails").

Modelling choices:
* C++ concrete types are `Ty`: an atom (any non-pointer type, numbered) or a
  pointer type `Ty.ptr u` (the C++ type `u *`).  `typeid` equality is
  equality of `Ty`; `typeid(type *)` for a requested `type` is
  `Ty.ptr type`.
* A `boost::any` content is `AnyVal`: `dataOf t v` is an owned non-pointer
  value `v` of atomic type `t`; `ptrOf u a` is a stored pointer of type
  `u *` holding address `a` (produced both by `add_ref` of a `u` object and
  by `add_copy` of a value of the pointer type `u *`, exactly as in C++
  where the two store identical `boost::any` contents).
* The map is an association list without duplicate-key semantics:
  `mapSet` implements `mydata[name] = x` (overwrite or append).
* References returned by `get` are locations `Loc`: `inHeap a` is a
  reference to the external object at address `a`, `inStore n` is a
  reference into the `boost::any` stored under name `n`.  A machine `State`
  carries the store and a heap of external objects; `readLoc`/`writeLoc`
  give the semantics of reading and assigning through such a reference.
-/

abbrev Name := String
abbrev Val := Int
abbrev Addr := Nat

/-- A C++ concrete type: an atomic (non-pointer) type, or a pointer type. -/
inductive Ty where
  | atom (t : Nat)
  | ptr (u : Ty)
  deriving DecidableEq, Repr

/-- The Lean type of the values of a C++ type: non-pointer types carry a
`Val`, pointer types carry an address. -/
def Ty.valOf : Ty → Type
  | Ty.atom _ => Val
  | Ty.ptr _ => Addr

/-- A C++ value as stored in memory: either plain data or a pointer. -/
inductive CppVal where
  | data (v : Val)
  | addr (a : Addr)
  deriving DecidableEq, Repr

/-- View a typed value as a raw `CppVal`. -/
def Ty.inject : (ty : Ty) → Ty.valOf ty → CppVal
  | Ty.atom _, v => CppVal.data v
  | Ty.ptr _, a => CppVal.addr a

/-- Content of one `boost::any` slot of `mydata`. -/
inductive AnyVal where
  | dataOf (t : Nat) (v : Val)
  | ptrOf (u : Ty) (a : Addr)
  deriving DecidableEq, Repr

/-- The `typeid` of the content of a slot (`mydata[name].type()`). -/
def AnyVal.tid : AnyVal → Ty
  | AnyVal.dataOf t _ => Ty.atom t
  | AnyVal.ptrOf u _ => Ty.ptr u

/-- The raw value held by a slot. -/
def AnyVal.content : AnyVal → CppVal
  | AnyVal.dataOf _ v => CppVal.data v
  | AnyVal.ptrOf _ a => CppVal.addr a

/-- The `boost::any` produced by copying a value of type `ty` into the map:
for a non-pointer type it owns the data, for a pointer type `u *` it holds
the pointer value (with `typeid` `u *`, just like an `add_ref` entry). -/
def mkAny : (ty : Ty) → Ty.valOf ty → AnyVal
  | Ty.atom t, v => AnyVal.dataOf t v
  | Ty.ptr u, a => AnyVal.ptrOf u a

/-- `m[name] = x` on the association list: overwrite the first binding of
`name`, or append a fresh one. -/
def mapSet : List (Name × AnyVal) → Name → AnyVal → List (Name × AnyVal)
  | [], n, x => [(n, x)]
  | (k, w) :: rest, n, x =>
      if k = n then (n, x) :: rest else (k, w) :: mapSet rest n x

/-- `m.find(name)` as an `Option`. -/
def lookupName : List (Name × AnyVal) → Name → Option AnyVal
  | [], _ => none
  | (k, w) :: rest, n => if k = n then some w else lookupName rest n

/-- The class `SAKData`: its single data member `mydata`. -/
structure SAKData where
  mydata : List (Name × AnyVal)
  deriving DecidableEq, Repr

/-- The errors the accessors can raise. -/
inductive Err where
  | nameNotFound (n : Name)
  | typeMismatch (requested stored : Ty)
  deriving DecidableEq, Repr

/-- A reference returned by `get`: into the heap (external object) or into
the `boost::any` stored under a name. -/
inductive Loc where
  | inHeap (a : Addr)
  | inStore (n : Name)
  deriving DecidableEq, Repr

/-- `SAKData::add_copy(entry, name)`: `mydata[name] = entry;`. -/
def SAKData.add_copy (s : SAKData) (ty : Ty) (entry : Ty.valOf ty) (name : Name) : SAKData :=
  ⟨mapSet s.mydata name (mkAny ty entry)⟩

/-- `SAKData::add_ref(entry, name)`: `type *ptr = &entry; mydata[name] = ptr;`.
The argument `entry` is passed by reference, so the embedding takes the
address of the referenced object. -/
def SAKData.add_ref (s : SAKData) (ty : Ty) (entry : Addr) (name : Name) : SAKData :=
  ⟨mapSet s.mydata name (AnyVal.ptrOf ty entry)⟩

/-- `type &SAKData::get(name)` (mutable form).  Returns the result and the
map after the call (the method is non-const, so the embedding threads the
map through).  `Assert(mydata.find(name) != mydata.end(), ExcNameNotFound)`
raises before anything touches the map, so a missing name leaves it
unchanged.  For a slot holding a pointer of type `u *`, the first test
`mydata[name].type() == typeid(type *)` is `Ty.ptr u = Ty.ptr ty` and the
second `... == typeid(type)` is `Ty.ptr u = ty`.  For a slot owning a
non-pointer value of atomic type `t`, the first test compares
`Ty.atom t` with `Ty.ptr ty`, which is false for every `ty` (an atom is
never a pointer type), so only the second test `Ty.atom t = ty` remains. -/
def SAKData.get (s : SAKData) (ty : Ty) (name : Name) : Except Err Loc × SAKData :=
  match lookupName s.mydata name with
  | none => (Except.error (Err.nameNotFound name), s)
  | some (AnyVal.ptrOf u a) =>
      if Ty.ptr u = Ty.ptr ty then (Except.ok (Loc.inHeap a), s)
      else if Ty.ptr u = ty then (Except.ok (Loc.inStore name), s)
      else (Except.error (Err.typeMismatch ty (Ty.ptr u)), s)
  | some (AnyVal.dataOf t _) =>
      if Ty.atom t = ty then (Except.ok (Loc.inStore name), s)
      else (Except.error (Err.typeMismatch ty (Ty.atom t)), s)

/-- `const type &SAKData::get(name) const` (read-only form).  Same
resolution logic, written against `mydata.at(name)`; the method is const,
so it returns only the result. -/
def SAKData.getConst (s : SAKData) (ty : Ty) (name : Name) : Except Err Loc :=
  match lookupName s.mydata name with
  | none => Except.error (Err.nameNotFound name)
  | some (AnyVal.ptrOf u a) =>
      if Ty.ptr u = Ty.ptr ty then Except.ok (Loc.inHeap a)
      else if Ty.ptr u = ty then Except.ok (Loc.inStore name)
      else Except.error (Err.typeMismatch ty (Ty.ptr u))
  | some (AnyVal.dataOf t _) =>
      if Ty.atom t = ty then Except.ok (Loc.inStore name)
      else Except.error (Err.typeMismatch ty (Ty.atom t))

/-- Machine state: the store plus the heap of external objects that
`add_ref` entries point into. -/
structure State where
  store : SAKData
  heap : Addr → CppVal

/-- Reading through a reference returned by `get`. -/
def readLoc (st : State) (l : Loc) : Option CppVal :=
  match l with
  | Loc.inHeap a => some (st.heap a)
  | Loc.inStore n =>
      match lookupName st.store.mydata n with
      | some av => some (AnyVal.content av)
      | none => none

/-- Assigning through a reference returned by `get`.  Writing into a stored
`boost::any` keeps the slot's `typeid` (C++ assignment through a `type &`
cannot change the dynamic type of the `any`). -/
def writeLoc (st : State) (l : Loc) (cv : CppVal) : State :=
  match l with
  | Loc.inHeap a =>
      { st with heap := fun a2 => if a2 = a then cv else st.heap a2 }
  | Loc.inStore n =>
      match lookupName st.store.mydata n, cv with
      | some (AnyVal.dataOf t _), CppVal.data v =>
          { st with store := ⟨mapSet st.store.mydata n (AnyVal.dataOf t v)⟩ }
      | some (AnyVal.ptrOf u _), CppVal.addr a =>
          { st with store := ⟨mapSet st.store.mydata n (AnyVal.ptrOf u a)⟩ }
      | _, _ => st

/-- One insertion event, recording which method was called and with what. -/
inductive Ins where
  | copy (ty : Ty) (entry : Ty.valOf ty)
  | ref (ty : Ty) (entry : Addr)

/-- Run one insertion on the store. -/
def applyIns (s : SAKData) (i : Ins) (n : Name) : SAKData :=
  match i with
  | Ins.copy ty v => s.add_copy ty v n
  | Ins.ref ty a => s.add_ref ty a n

/-- The slot an insertion writes. -/
def Ins.slot : Ins → AnyVal
  | Ins.copy ty v => mkAny ty v
  | Ins.ref ty a => AnyVal.ptrOf ty a

/-- The C++ type of the inserted value (the template argument). -/
def Ins.ity : Ins → Ty
  | Ins.copy ty _ => ty
  | Ins.ref ty _ => ty

/-- Whether the insertion was an `add_ref`. -/
def Ins.isRef : Ins → Bool
  | Ins.copy _ _ => false
  | Ins.ref _ _ => true

/-! ### Basic lemmas about the association list -/

theorem lookupName_mapSet_self (m : List (Name × AnyVal)) (n : Name) (x : AnyVal) :
    lookupName (mapSet m n x) n = some x := by
  induction m with
  | nil => simp [mapSet, lookupName]
  | cons p rest ih =>
      obtain ⟨k, w⟩ := p
      by_cases hk : k = n <;> simp [mapSet, lookupName, hk, ih]

theorem lookupName_mapSet_ne (m : List (Name × AnyVal)) (n k : Name) (x : AnyVal)
    (h : k ≠ n) : lookupName (mapSet m n x) k = lookupName m k := by
  have hnk : n ≠ k := Ne.symm h
  induction m with
  | nil => simp [mapSet, lookupName, hnk]
  | cons p rest ih =>
      obtain ⟨k2, w⟩ := p
      by_cases hk : k2 = n
      · subst hk
        simp [mapSet, lookupName, hnk]
      · simp [mapSet, lookupName, hk, ih]

theorem applyIns_mydata (s : SAKData) (i : Ins) (n : Name) :
    (applyIns s i n).mydata = mapSet s.mydata n i.slot := by
  cases i <;> rfl

/-- A type is never equal to its own pointer type. -/
theorem Ty.ne_ptr_self (u : Ty) : u ≠ Ty.ptr u := by
  induction u with
  | atom t => intro h; exact Ty.noConfusion h
  | ptr w ih =>
      intro h
      exact ih (Ty.ptr.inj h)

/-! ### Helper lemmas about the accessors -/

theorem SAKData.get_snd_eq (s : SAKData) (ty : Ty) (n : Name) :
    (s.get ty n).2 = s := by
  unfold SAKData.get
  cases lookupName s.mydata n with
  | none => rfl
  | some av =>
      cases av with
      | ptrOf u a =>
          dsimp only
          split
          · rfl
          · split <;> rfl
      | dataOf t v =>
          dsimp only
          split <;> rfl

theorem SAKData.get_fst_eq_getConst (s : SAKData) (ty : Ty) (n : Name) :
    (s.get ty n).1 = s.getConst ty n := by
  unfold SAKData.get SAKData.getConst
  cases lookupName s.mydata n with
  | none => rfl
  | some av =>
      cases av with
      | ptrOf u a =>
          dsimp only
          split
          · rfl
          · split <;> rfl
      | dataOf t v =>
          dsimp only
          split <;> rfl

theorem SAKData.get_fst_congr (s1 s2 : SAKData) (ty : Ty) (n : Name)
    (h : lookupName s1.mydata n = lookupName s2.mydata n) :
    (s1.get ty n).1 = (s2.get ty n).1 := by
  unfold SAKData.get
  rw [h]
  cases lookupName s2.mydata n with
  | none => rfl
  | some av =>
      cases av with
      | ptrOf u a =>
          dsimp only
          split
          · rfl
          · split <;> rfl
      | dataOf t v =>
          dsimp only
          split <;> rfl

theorem SAKData.getConst_congr (s1 s2 : SAKData) (ty : Ty) (n : Name)
    (h : lookupName s1.mydata n = lookupName s2.mydata n) :
    s1.getConst ty n = s2.getConst ty n := by
  unfold SAKData.getConst
  rw [h]

/-! ### The claims -/

/-- C1: after `add_copy` of a value `v` of type `ty` under name `n`,
`get` at that type and name succeeds and returns a reference into the
store's own storage, and reading through it yields `v`; after assigning
`v2` through that reference, the next `get` on the same store returns the
same reference (the same underlying owned storage) and reading it yields
`v2`. -/
theorem add_copy_then_get_roundtrip_and_mutation
    (st : State) (n : Name) (ty : Ty) (v v2 : Ty.valOf ty) :
    (((st.store.add_copy ty v n).get ty n).1 = Except.ok (Loc.inStore n)) ∧
    readLoc { st with store := st.store.add_copy ty v n } (Loc.inStore n)
      = some (Ty.inject ty v) ∧
    (((writeLoc { st with store := st.store.add_copy ty v n } (Loc.inStore n)
        (Ty.inject ty v2)).store.get ty n).1 = Except.ok (Loc.inStore n)) ∧
    readLoc (writeLoc { st with store := st.store.add_copy ty v n } (Loc.inStore n)
        (Ty.inject ty v2)) (Loc.inStore n) = some (Ty.inject ty v2) := by
  cases ty with
  | atom t =>
      refine ⟨?_, ?_, ?_, ?_⟩ <;>
        simp [SAKData.get, SAKData.add_copy, mkAny, readLoc, writeLoc,
          lookupName_mapSet_self, AnyVal.content, Ty.inject]
  | ptr u =>
      have hne : ¬ Ty.ptr u = Ty.ptr (Ty.ptr u) := by
        intro h
        exact Ty.ne_ptr_self u (Ty.ptr.inj h)
      refine ⟨?_, ?_, ?_, ?_⟩ <;>
        simp [SAKData.get, SAKData.add_copy, mkAny, readLoc, writeLoc,
          lookupName_mapSet_self, AnyVal.content, Ty.inject, hne]

/-- C2: on a store in which name `n` is absent, both forms of `get` fail
with `ExcNameNotFound` carrying exactly the missing name, for every
requested type. -/
theorem get_absent_name_fails_name_not_found
    (s : SAKData) (ty : Ty) (n : Name) (h : lookupName s.mydata n = none) :
    (s.get ty n).1 = Except.error (Err.nameNotFound n) ∧
    s.getConst ty n = Except.error (Err.nameNotFound n) := by
  constructor
  · unfold SAKData.get
    rw [h]
  · unfold SAKData.getConst
    rw [h]

/-- Witness for C2: the empty store at name "absent". -/
theorem get_absent_name_fails_name_not_found_witness :
    lookupName (SAKData.mk []).mydata "absent" = none ∧
    ((SAKData.mk []).get (Ty.atom 0) "absent").1
      = Except.error (Err.nameNotFound "absent") ∧
    (SAKData.mk []).getConst (Ty.atom 0) "absent"
      = Except.error (Err.nameNotFound "absent") := by
  refine ⟨rfl, ?_⟩
  exact get_absent_name_fails_name_not_found (SAKData.mk []) (Ty.atom 0) "absent" rfl

/-- C7: the mutable and the read-only forms of `get` resolve identically:
on every store, name and requested type they return the same reference or
the same error with the same payload. -/
theorem get_mutable_eq_get_const (s : SAKData) (ty : Ty) (n : Name) :
    (s.get ty n).1 = s.getConst ty n := by
  exact SAKData.get_fst_eq_getConst s ty n

/-- C10: `get` never changes the store: every name is bound to the same
slot before and after the call, whether it succeeds or fails. -/
theorem get_leaves_store_unchanged (s : SAKData) (ty : Ty) (n : Name) :
    (s.get ty n).2 = s := by
  exact SAKData.get_snd_eq s ty n

/-- C5: after `add_ref` of the object of type `ty` living at address `x`
under name `n`, `get` at that type returns a reference to that very object
(`Loc.inHeap x`, identity-equal, no copy): reading through it yields the
current heap content at `x`, assigning through it updates the heap at `x`,
and after a direct update of the object the reference returned by the next
`get` reads the new content.  By contrast, a value inserted with `add_copy`
is retrieved as the store's own copy (`Loc.inStore n`, never a heap
reference) with equal value but different identity. -/
theorem add_ref_then_get_aliases_referent
    (st : State) (n : Name) (ty : Ty) (x : Addr) (cv : CppVal) (v : Ty.valOf ty) :
    (((st.store.add_ref ty x n).get ty n).1 = Except.ok (Loc.inHeap x)) ∧
    readLoc { st with store := st.store.add_ref ty x n } (Loc.inHeap x)
      = some (st.heap x) ∧
    ((writeLoc { st with store := st.store.add_ref ty x n } (Loc.inHeap x) cv).heap x
      = cv) ∧
    readLoc { st with store := st.store.add_ref ty x n,
                      heap := fun a => if a = x then cv else st.heap a } (Loc.inHeap x)
      = some cv ∧
    (∀ a : Addr, ((st.store.add_copy ty v n).get ty n).1 ≠ Except.ok (Loc.inHeap a)) ∧
    (((st.store.add_copy ty v n).get ty n).1 = Except.ok (Loc.inStore n)) ∧
    readLoc { st with store := st.store.add_copy ty v n } (Loc.inStore n)
      = some (Ty.inject ty v) := by
  have hcopy : ((st.store.add_copy ty v n).get ty n).1 = Except.ok (Loc.inStore n) := by
    cases ty with
    | atom t =>
        simp [SAKData.get, SAKData.add_copy, mkAny, lookupName_mapSet_self]
    | ptr u =>
        have hne : ¬ Ty.ptr u = Ty.ptr (Ty.ptr u) := by
          intro h
          exact Ty.ne_ptr_self u (Ty.ptr.inj h)
        simp [SAKData.get, SAKData.add_copy, mkAny, lookupName_mapSet_self, hne]
  have hread : readLoc { st with store := st.store.add_copy ty v n } (Loc.inStore n)
      = some (Ty.inject ty v) := by
    cases ty with
    | atom t =>
        simp [readLoc, SAKData.add_copy, mkAny, lookupName_mapSet_self,
          AnyVal.content, Ty.inject]
    | ptr u =>
        simp [readLoc, SAKData.add_copy, mkAny, lookupName_mapSet_self,
          AnyVal.content, Ty.inject]
  refine ⟨?_, rfl, ?_, ?_, ?_, hcopy, hread⟩
  · simp [SAKData.get, SAKData.add_ref, lookupName_mapSet_self]
  · simp [writeLoc]
  · simp [readLoc]
  · intro a h
    rw [hcopy] at h
    exact Loc.noConfusion (Except.ok.inj h)

/-- C6: a second insertion under an already-used name (owned or reference,
in either order, any types) silently replaces the prior entry: the slot
under the name, and every `get` on the name, agree with a store in which
only the second insertion happened. -/
theorem insert_overwrites_prior_entry
    (s : SAKData) (i j : Ins) (n : Name) (ty : Ty) :
    lookupName (applyIns (applyIns s i n) j n).mydata n
      = lookupName (applyIns s j n).mydata n ∧
    ((applyIns (applyIns s i n) j n).get ty n).1 = ((applyIns s j n).get ty n).1 ∧
    (applyIns (applyIns s i n) j n).getConst ty n = (applyIns s j n).getConst ty n := by
  have hl : lookupName (applyIns (applyIns s i n) j n).mydata n
      = lookupName (applyIns s j n).mydata n := by
    rw [applyIns_mydata, applyIns_mydata, applyIns_mydata,
      lookupName_mapSet_self, lookupName_mapSet_self]
  exact ⟨hl, SAKData.get_fst_congr _ _ _ _ hl, SAKData.getConst_congr _ _ _ _ hl⟩

/-- C8: insertion always takes effect, for every name (the empty string
included) and every value; and retrieval is all-or-nothing: `get` either
returns a reference that reads back a value, or fails with exactly
`ExcNameNotFound` of the looked-up name, or fails with an `ExcTypeMismatch`. -/
theorem insertion_total_and_get_all_or_nothing
    (st : State) (s : SAKData) (ty A : Ty) (v : Ty.valOf A) (x : Addr) (n m : Name) :
    lookupName (s.add_copy A v m).mydata m = some (mkAny A v) ∧
    lookupName (s.add_ref A x m).mydata m = some (AnyVal.ptrOf A x) ∧
    ((∃ l w, (st.store.get ty n).1 = Except.ok l ∧ readLoc st l = some w) ∨
      (st.store.get ty n).1 = Except.error (Err.nameNotFound n) ∨
      (∃ r u2, (st.store.get ty n).1 = Except.error (Err.typeMismatch r u2))) := by
  refine ⟨lookupName_mapSet_self _ _ _, lookupName_mapSet_self _ _ _, ?_⟩
  unfold SAKData.get
  cases h : lookupName st.store.mydata n with
  | none => exact Or.inr (Or.inl rfl)
  | some av =>
      cases av with
      | dataOf t v2 =>
          by_cases hty : Ty.atom t = ty
          · refine Or.inl ⟨Loc.inStore n, AnyVal.content (AnyVal.dataOf t v2), ?_, ?_⟩
            · simp [hty]
            · simp [readLoc, h]
          · exact Or.inr (Or.inr ⟨ty, Ty.atom t, by simp [hty]⟩)
      | ptrOf u a =>
          by_cases h1 : Ty.ptr u = Ty.ptr ty
          · refine Or.inl ⟨Loc.inHeap a, st.heap a, ?_, rfl⟩
            simp [h1]
          · by_cases h2 : Ty.ptr u = ty
            · refine Or.inl ⟨Loc.inStore n, AnyVal.content (AnyVal.ptrOf u a), ?_, ?_⟩
              · simp [h1, h2, Ty.ne_ptr_self ty]
              · simp [readLoc, h]
            · exact Or.inr (Or.inr ⟨ty, Ty.ptr u, by simp [h1, h2]⟩)

/-- C9: inserting under a name leaves the slot (type, ownership mode and
value) of every other name untouched, and a `get` call — at any name,
the slot's own name included — leaves the slot of every name untouched;
so only overwriting the same name can change the type observed there. -/
theorem slot_unchanged_by_other_insert_and_get
    (s : SAKData) (i : Ins) (n m : Name) (h : n ≠ m) :
    lookupName (applyIns s i n).mydata m = lookupName s.mydata m ∧
    (∀ n2 m2 : Name, ∀ ty2 : Ty,
      lookupName ((s.get ty2 n2).2).mydata m2 = lookupName s.mydata m2) := by
  constructor
  · rw [applyIns_mydata]
    exact lookupName_mapSet_ne s.mydata n m i.slot (Ne.symm h)
  · intro n2 m2 ty2
    rw [SAKData.get_snd_eq]

/-- Witness for C9 at a concrete store and pair of distinct names. -/
theorem slot_unchanged_by_other_insert_and_get_witness :
    ("a" : Name) ≠ "b" ∧
    (lookupName (applyIns (SAKData.mk [("b", AnyVal.dataOf 1 4)])
        (Ins.copy (Ty.atom 0) (5 : Val)) "a").mydata "b"
      = lookupName (SAKData.mk [("b", AnyVal.dataOf 1 4)]).mydata "b" ∧
     (∀ n2 m2 : Name, ∀ ty2 : Ty,
       lookupName (((SAKData.mk [("b", AnyVal.dataOf 1 4)]).get ty2 n2).2).mydata m2
        = lookupName (SAKData.mk [("b", AnyVal.dataOf 1 4)]).mydata m2)) := by
  refine ⟨by decide, ?_⟩
  exact slot_unchanged_by_other_insert_and_get
    (SAKData.mk [("b", AnyVal.dataOf 1 4)]) (Ins.copy (Ty.atom 0) (5 : Val))
    "a" "b" (by decide)

/-- Counterexample to C3 as stated: copy-insert a value of the pointer type
"int *" (Ty.ptr (Ty.atom 0), here the address 7) under "p", then request
the distinct concrete type "int" (Ty.atom 0).  Both forms of `get` succeed
by dereferencing the stored pointer instead of failing with a type
mismatch: the map records only the typeid "int *", which matches the first
test typeid(requested *) exactly as an `add_ref` entry would. -/
theorem get_after_copy_of_pointer_succeeds_at_referent_type :
    Ty.ptr (Ty.atom 0) ≠ Ty.atom 0 ∧
    (((SAKData.mk []).add_copy (Ty.ptr (Ty.atom 0)) (7 : Addr) "p").get
        (Ty.atom 0) "p").1 = Except.ok (Loc.inHeap 7) ∧
    ((SAKData.mk []).add_copy (Ty.ptr (Ty.atom 0)) (7 : Addr) "p").getConst
        (Ty.atom 0) "p" = Except.ok (Loc.inHeap 7) := by
  refine ⟨by decide, rfl, rfl⟩

/-- C3 amended: after inserting a value of type `A` under `n` (either
mode), a `get` at a distinct concrete type `B` fails with
`ExcTypeMismatch` carrying the requested and the stored typeids — provided
neither type is the pointer type of the other's referent: if `A = B *` the
copy-inserted pointer is instead dereferenced (see the counterexample),
and if `B = A *` a reference-inserted entry is instead returned as the
stored pointer object itself.  Base/derived relations between distinct
`A`, `B` get no special treatment: they fail like any other pair. -/
theorem get_distinct_type_fails_type_mismatch
    (s : SAKData) (n : Name) (A B : Ty) (v : Ty.valOf A) (x : Addr)
    (hAB : A ≠ B) (hA : A ≠ Ty.ptr B) (hB : B ≠ Ty.ptr A) :
    ((s.add_copy A v n).get B n).1 = Except.error (Err.typeMismatch B A) ∧
    (s.add_copy A v n).getConst B n = Except.error (Err.typeMismatch B A) ∧
    ((s.add_ref A x n).get B n).1 = Except.error (Err.typeMismatch B (Ty.ptr A)) ∧
    (s.add_ref A x n).getConst B n = Except.error (Err.typeMismatch B (Ty.ptr A)) := by
  cases A with
  | atom t =>
      refine ⟨?_, ?_, ?_, ?_⟩ <;>
        simp [SAKData.get, SAKData.getConst, SAKData.add_copy, SAKData.add_ref,
          mkAny, lookupName_mapSet_self, hAB, Ne.symm hB]
  | ptr u =>
      refine ⟨?_, ?_, ?_, ?_⟩ <;>
        simp [SAKData.get, SAKData.getConst, SAKData.add_copy, SAKData.add_ref,
          mkAny, lookupName_mapSet_self, hAB, hA, Ne.symm hB]

/-- Witness for the amended C3 at concrete distinct atomic types. -/
theorem get_distinct_type_fails_type_mismatch_witness :
    Ty.atom 0 ≠ Ty.atom 1 ∧ Ty.atom 0 ≠ Ty.ptr (Ty.atom 1) ∧
    Ty.atom 1 ≠ Ty.ptr (Ty.atom 0) ∧
    ((((SAKData.mk []).add_copy (Ty.atom 0) (5 : Val) "n").get (Ty.atom 1) "n").1
        = Except.error (Err.typeMismatch (Ty.atom 1) (Ty.atom 0)) ∧
      ((SAKData.mk []).add_copy (Ty.atom 0) (5 : Val) "n").getConst (Ty.atom 1) "n"
        = Except.error (Err.typeMismatch (Ty.atom 1) (Ty.atom 0)) ∧
      (((SAKData.mk []).add_ref (Ty.atom 0) 3 "n").get (Ty.atom 1) "n").1
        = Except.error (Err.typeMismatch (Ty.atom 1) (Ty.ptr (Ty.atom 0))) ∧
      ((SAKData.mk []).add_ref (Ty.atom 0) 3 "n").getConst (Ty.atom 1) "n"
        = Except.error (Err.typeMismatch (Ty.atom 1) (Ty.ptr (Ty.atom 0)))) := by
  refine ⟨by decide, by decide, by decide, ?_⟩
  exact get_distinct_type_fails_type_mismatch (SAKData.mk []) "n"
    (Ty.atom 0) (Ty.atom 1) (5 : Val) 3 (by decide) (by decide) (by decide)

/-- Counterexample to C4 as stated: the slot under "p" was created by an
owned insertion (`add_copy`, not `add_ref`) of a value whose type
Ty.ptr (Ty.atom 0) is not the requested type Ty.atom 0, yet the `get`
succeeds (through the pointer branch).  So success is not equivalent to
"created by insert-ref with referent type T or by insert-owned with stored
type T". -/
theorem get_success_not_limited_to_matching_insertions :
    (((applyIns (SAKData.mk [])
          (Ins.copy (Ty.ptr (Ty.atom 0)) (7 : Addr)) "p").get (Ty.atom 0) "p").1
      = Except.ok (Loc.inHeap 7)) ∧
    (Ins.copy (Ty.ptr (Ty.atom 0)) (7 : Addr)).isRef = false ∧
    (Ins.copy (Ty.ptr (Ty.atom 0)) (7 : Addr)).ity ≠ Ty.atom 0 := by
  refine ⟨rfl, rfl, by decide⟩

/-- C4 amended: for a name bound to slot `av`, `get` at type `ty` succeeds
iff the slot's recorded typeid is exactly `Ty.ptr ty` (the pointer branch,
resolved first, returning the pointed-to external object — regardless of
which insertion mode stored the pointer) or exactly `ty` (resolved second,
returning a reference into the store's own `boost::any`); any other
recorded typeid fails with `ExcTypeMismatch`, with no implicit conversion
and no base/derived compatibility. -/
theorem get_success_iff_exact_typeid
    (s : SAKData) (ty : Ty) (n : Name) (av : AnyVal)
    (h : lookupName s.mydata n = some av) :
    ((∃ l, (s.get ty n).1 = Except.ok l) ↔
      (av.tid = Ty.ptr ty ∨ av.tid = ty)) ∧
    (∀ a, av = AnyVal.ptrOf ty a → (s.get ty n).1 = Except.ok (Loc.inHeap a)) ∧
    (av.tid = ty → (s.get ty n).1 = Except.ok (Loc.inStore n)) ∧
    (av.tid ≠ Ty.ptr ty → av.tid ≠ ty →
      (s.get ty n).1 = Except.error (Err.typeMismatch ty av.tid)) := by
  unfold SAKData.get
  rw [h]
  cases av with
  | dataOf t v =>
      by_cases hty : Ty.atom t = ty <;>
        simp [AnyVal.tid, hty]
  | ptrOf u a =>
      by_cases h1 : u = ty
      · subst h1
        simp [AnyVal.tid, Ne.symm (Ty.ne_ptr_self u)]
      · by_cases h2 : Ty.ptr u = ty
        · simp [AnyVal.tid, h1, h2, Ty.ne_ptr_self ty]
        · simp [AnyVal.tid, h1, h2]

/-- Witness for the amended C4 at a concrete store and slot. -/
theorem get_success_iff_exact_typeid_witness :
    lookupName (SAKData.mk [("k", AnyVal.dataOf 0 5)]).mydata "k"
      = some (AnyVal.dataOf 0 5) ∧
    (((∃ l, ((SAKData.mk [("k", AnyVal.dataOf 0 5)]).get (Ty.atom 0) "k").1
          = Except.ok l) ↔
        ((AnyVal.dataOf 0 5).tid = Ty.ptr (Ty.atom 0) ∨
          (AnyVal.dataOf 0 5).tid = Ty.atom 0)) ∧
      (∀ a, AnyVal.dataOf 0 5 = AnyVal.ptrOf (Ty.atom 0) a →
        ((SAKData.mk [("k", AnyVal.dataOf 0 5)]).get (Ty.atom 0) "k").1
          = Except.ok (Loc.inHeap a)) ∧
      ((AnyVal.dataOf 0 5).tid = Ty.atom 0 →
        ((SAKData.mk [("k", AnyVal.dataOf 0 5)]).get (Ty.atom 0) "k").1
          = Except.ok (Loc.inStore "k")) ∧
      ((AnyVal.dataOf 0 5).tid ≠ Ty.ptr (Ty.atom 0) →
        (AnyVal.dataOf 0 5).tid ≠ Ty.atom 0 →
        ((SAKData.mk [("k", AnyVal.dataOf 0 5)]).get (Ty.atom 0) "k").1
          = Except.error (Err.typeMismatch (Ty.atom 0) (AnyVal.dataOf 0 5).tid))) := by
  refine ⟨rfl, ?_⟩
  exact get_success_iff_exact_typeid (SAKData.mk [("k", AnyVal.dataOf 0 5)])
    (Ty.atom 0) "k" (AnyVal.dataOf 0 5) rfl
